import Mathlib

/-
Verification of the indicator / pivot / wave-label / forecast pipeline of
scripts/make_charts.py.

The script computes, over a daily OHLCV price series (a pandas DataFrame with a
RangeIndex after reset_index):
  * rolling moving averages MA_5 / MA_14 / MA_20 of Close,
  * Bollinger bands (20-bar rolling mean, population std, ± 2 std),
  * stochastic RSV over trailing 9-bar High/Low extremes and the K / D lines as
    pandas ewm(alpha = 1/3, adjust = False) of RSV resp. K,
  * local extrema of Close via a symmetric window (pivot_points),
  * a greedy spacing / amplitude filter over the merged pivot list,
  * wave labels for the last 8 surviving pivots,
  * a two-point C-wave projection from the pivots labeled "A" and "B".

Embedding conventions: a pandas column is a function from the bar index to
Option ℚ, where none models an undefined entry (a leading NaN of a rolling
window, or the NaN produced by the 0/0 float division of a zero-range
stochastic window).  Prices are rationals; dates are integers (day numbers),
timedelta(days = 20) is + 20.  Bollinger bands live in ℝ because the rolling
standard deviation takes a square root.
-/

/-- One row of the price DataFrame (one trading day).  Fields mirror the
columns Date / Open / High / Low / Close / Volume used by the script. -/
structure Bar where
  date : Int
  openP : ℚ
  high : ℚ
  low : ℚ
  close : ℚ
  volume : Int
deriving DecidableEq

/-- The Close column, `df["Close"]`. -/
def closes (df : List Bar) : List ℚ := df.map (fun b => b.close)

/-- The High column, `df["High"]`. -/
def highs (df : List Bar) : List ℚ := df.map (fun b => b.high)

/-- The Low column, `df["Low"]`. -/
def lows (df : List Bar) : List ℚ := df.map (fun b => b.low)

/-- `df.loc[i, "Close"]` (the RangeIndex makes label and position agree; the
default value 0 is never reached at a valid index). -/
def closeAt (df : List Bar) (i : ℕ) : ℚ := (closes df).getD i 0

/-- `df.loc[i, "Date"]`. -/
def dateAt (df : List Bar) (i : ℕ) : Int := (df.map (fun b => b.date)).getD i 0

/-- A pandas rolling window of size n at row i: `xs[i-n+1 .. i]`, defined (with
the default min_periods) only once the window is fully populated, i.e. for
n ≤ i + 1. -/
def rollingApply (n : ℕ) (f : List ℚ → ℚ) (xs : List ℚ) (i : ℕ) : Option ℚ :=
  if n ≤ i + 1 ∧ i < xs.length then some (f ((xs.take (i + 1)).drop (i + 1 - n))) else none

/-- Arithmetic mean of a list, `Series.mean()`. -/
def listMean (l : List ℚ) : ℚ := l.sum / l.length

/-- Population variance (divisor = length, pandas `std(ddof=0)` squared). -/
def popVar (l : List ℚ) : ℚ := (l.map (fun x => (x - listMean l) ^ 2)).sum / l.length

/-- `df["MA_n"] = df["Close"].rolling(n).mean()` (script line 31-32). -/
def MA (n : ℕ) (df : List Bar) (i : ℕ) : Option ℚ := rollingApply n listMean (closes df) i

/-- `bb_mid = df["Close"].rolling(20).mean()` (script line 35). -/
def BB_Mid (df : List Bar) (i : ℕ) : Option ℚ := rollingApply 20 listMean (closes df) i

/-- The square of `bb_std = df["Close"].rolling(20).std(ddof=0)` (script line
36): the population variance of Close over the trailing 20 bars. -/
def bbVar (df : List Bar) (i : ℕ) : Option ℚ := rollingApply 20 popVar (closes df) i

/-- `bb_std` itself: the population standard deviation, a real square root. -/
noncomputable def BB_Std (df : List Bar) (i : ℕ) : Option ℝ :=
  match bbVar df i with
  | some v => some (Real.sqrt ((v : ℚ) : ℝ))
  | none => none

/-- `df["BB_Upper"] = bb_mid + 2 * bb_std` (script line 38). -/
noncomputable def BB_Upper (df : List Bar) (i : ℕ) : Option ℝ :=
  match BB_Mid df i, BB_Std df i with
  | some m, some s => some ((m : ℝ) + 2 * s)
  | _, _ => none

/-- `df["BB_Lower"] = bb_mid - 2 * bb_std` (script line 39). -/
noncomputable def BB_Lower (df : List Bar) (i : ℕ) : Option ℝ :=
  match BB_Mid df i, BB_Std df i with
  | some m, some s => some ((m : ℝ) - 2 * s)
  | _, _ => none

/-- `high_max = df["High"].rolling(9).max()` (script line 43). -/
def high_max (df : List Bar) (i : ℕ) : Option ℚ :=
  rollingApply 9 (fun l => (l.max?).getD 0) (highs df) i

/-- `low_min = df["Low"].rolling(9).min()` (script line 42). -/
def low_min (df : List Bar) (i : ℕ) : Option ℚ :=
  rollingApply 9 (fun l => (l.min?).getD 0) (lows df) i

/-- `df["RSV"] = (Close - low_min) / (high_max - low_min) * 100` (script line
44).  When the trailing 9-bar range is zero the float division is 0/0 (the
Close then equals the common High = Low value), which pandas propagates as
NaN; the embedding represents that NaN as none, so the rational division is
only taken under the guard `hm ≠ lm`. -/
def RSV (df : List Bar) (i : ℕ) : Option ℚ :=
  match high_max df i, low_min df i with
  | some hm, some lm =>
      if hm = lm then none else some ((closeAt df i - lm) / (hm - lm) * 100)
  | _, _ => none

/-- One step of pandas `ewm(alpha=1/3, adjust=False, ignore_na=False).mean()`:
the state is (current weighted average or none before the first observation,
accumulated old weight).  On an observation after the seed the new average is
(ow·(2/3)·w + (1/3)·c) / (ow·(2/3) + 1/3) and the weight resets to 1; on a
missing value the old weight decays by the factor 2/3 (absolute-position
weighting); before the first observation nothing accumulates. -/
def ewmStep : (Option ℚ × ℚ) → Option ℚ → (Option ℚ × ℚ)
  | (some w, ow), some c => (some ((ow * (2/3) * w + (1/3) * c) / (ow * (2/3) + 1/3)), 1)
  | (some w, ow), none => (some w, ow * (2/3))
  | (none, ow), some c => (some c, ow)
  | (none, ow), none => (none, ow)

/-- State of the exponential smoothing after consuming inputs 0 .. i-1. -/
def ewmState (f : ℕ → Option ℚ) : ℕ → Option ℚ × ℚ
  | 0 => (none, 1)
  | i + 1 => ewmStep (ewmState f i) (f i)

/-- Output of `Series.ewm(alpha=1/3, adjust=False).mean()` at row i. -/
def ewmAt (f : ℕ → Option ℚ) (i : ℕ) : Option ℚ := (ewmState f (i + 1)).1

/-- `df["K"] = df["RSV"].ewm(alpha=1/3, adjust=False).mean()` (script line 45). -/
def K (df : List Bar) (i : ℕ) : Option ℚ := ewmAt (RSV df) i

/-- `df["D"] = df["K"].ewm(alpha=1/3, adjust=False).mean()` (script line 46). -/
def D (df : List Bar) (i : ℕ) : Option ℚ := ewmAt (K df) i

/-- The indices scanned by `pivot_points`: `range(window, len(series) - window)`
(script line 55). -/
def pivotRange (len w : ℕ) : List ℕ := List.range' w (len - w - w)

/-- The window `series[i - window : i + window + 1]` (script line 56). -/
def segAt (s : List ℚ) (w i : ℕ) : List ℚ := (s.take (i + w + 1)).drop (i - w)

/-- The peak half of `pivot_points` (script lines 52-61): every interior index
whose value equals the maximum of its symmetric window. -/
def pivot_points_high (s : List ℚ) (w : ℕ) : List ℕ :=
  (pivotRange s.length w).filter
    (fun i => decide ((segAt s w i).maximum = (s.getD i 0 : WithBot ℚ)))

/-- The trough half of `pivot_points`: indices whose value equals the window
minimum. -/
def pivot_points_low (s : List ℚ) (w : ℕ) : List ℕ :=
  (pivotRange s.length w).filter
    (fun i => decide ((segAt s w i).minimum = (s.getD i 0 : WithTop ℚ)))

/-- `all_idx = sorted(set(hi_idx + lo_idx))` (script line 66): the ascending
enumeration of the set of pivot indices.  Every pivot index lies below
`df.length`, so filtering `range(len(df))` by membership produces exactly the
sorted deduplicated merge. -/
def all_idx (df : List Bar) : List ℕ :=
  (List.range df.length).filter
    (fun i => decide (i ∈ pivot_points_high (closes df) 3 ∨ i ∈ pivot_points_low (closes df) 3))

/-- The body of the filtering loop (script lines 69-79) after the first pivot
has been accepted: `last` is the last accepted index; a candidate is skipped
when it is fewer than 3 bars after `last` or when its relative Close change
from `last` is below 1%. -/
def filterAux (c : ℕ → ℚ) : ℕ → List ℕ → List ℕ
  | _, [] => []
  | last, idx :: rest =>
      if idx - last < 3 then filterAux c last rest
      else if |c idx - c last| / c last < 1/100 then filterAux c last rest
      else idx :: filterAux c idx rest

/-- The whole filtering loop: the first pivot is accepted unconditionally
(script lines 71-73). -/
def filteredPivots (c : ℕ → ℚ) : List ℕ → List ℕ
  | [] => []
  | idx :: rest => idx :: filterAux c idx rest

/-- `filtered` of the script applied to the merged pivot list. -/
def filtered (df : List Bar) : List ℕ := filteredPivots (closeAt df) (all_idx df)

/-- `wave_marks` (script line 83). -/
def wave_marks : List String := ["①", "②", "③", "④", "⑤", "A", "B", "C"]

/-- The labeling step (script lines 82-87) on an arbitrary surviving pivot
list: if at least 8 pivots survive, the last 8 are zipped with the fixed label
sequence (as index-label pairs, in insertion order, matching the dict built by
the script); otherwise no labels are assigned. -/
def labelsOf (fl : List ℕ) : List (ℕ × String) :=
  if 8 ≤ fl.length then (fl.drop (fl.length - 8)).zip wave_marks else []

/-- `labels` of the script. -/
def labels (df : List Bar) : List (ℕ × String) := labelsOf (filtered df)

/-- `[k for k, v in labels.items() if v == m][0]` as an Option: the index of
the first pivot carrying mark m (script lines 92-93). -/
def firstLabeled (df : List Bar) (m : String) : Option ℕ :=
  (((labels df).filter (fun p => decide (p.2 = m))).head?).map Prod.fst

/-- The projection block (script lines 89-100).  The result is the pair
(pred_path_x, pred_path_y); `none` models the uncaught IndexError that the
lookups `[...][0]` would raise on an empty match (proved unreachable under the
"B" guard), and `some ([], [])` is the no-projection case. -/
def pred_path (df : List Bar) : Option (List Int × List ℚ) :=
  if "B" ∈ (labels df).map Prod.snd then
    match firstLabeled df "B", firstLabeled df "A" with
    | some bIdx, some aIdx =>
        some ([dateAt df bIdx, dateAt df bIdx + 20],
              [closeAt df bIdx,
               closeAt df bIdx + (closeAt df bIdx - closeAt df aIdx) * (618/1000)])
    | _, _ => none
  else some ([], [])

/-- A 28-bar zigzag series (period 6, swinging between 100 and 110, all OHLC
fields equal): it has exactly eight well-separated pivots, so every wave label
is assigned, with "A" on a 100-trough and "B" on a 110-peak. -/
def exDf : List Bar :=
  [⟨0, 100, 100, 100, 100, 0⟩, ⟨1, 103, 103, 103, 103, 0⟩, ⟨2, 106, 106, 106, 106, 0⟩,
   ⟨3, 110, 110, 110, 110, 0⟩, ⟨4, 106, 106, 106, 106, 0⟩, ⟨5, 103, 103, 103, 103, 0⟩,
   ⟨6, 100, 100, 100, 100, 0⟩, ⟨7, 103, 103, 103, 103, 0⟩, ⟨8, 106, 106, 106, 106, 0⟩,
   ⟨9, 110, 110, 110, 110, 0⟩, ⟨10, 106, 106, 106, 106, 0⟩, ⟨11, 103, 103, 103, 103, 0⟩,
   ⟨12, 100, 100, 100, 100, 0⟩, ⟨13, 103, 103, 103, 103, 0⟩, ⟨14, 106, 106, 106, 106, 0⟩,
   ⟨15, 110, 110, 110, 110, 0⟩, ⟨16, 106, 106, 106, 106, 0⟩, ⟨17, 103, 103, 103, 103, 0⟩,
   ⟨18, 100, 100, 100, 100, 0⟩, ⟨19, 103, 103, 103, 103, 0⟩, ⟨20, 106, 106, 106, 106, 0⟩,
   ⟨21, 110, 110, 110, 110, 0⟩, ⟨22, 106, 106, 106, 106, 0⟩, ⟨23, 103, 103, 103, 103, 0⟩,
   ⟨24, 100, 100, 100, 100, 0⟩, ⟨25, 103, 103, 103, 103, 0⟩, ⟨26, 106, 106, 106, 106, 0⟩,
   ⟨27, 110, 110, 110, 110, 0⟩]

/-- A 19-bar series whose 9-bar High/Low range is zero exactly at index 17
(bars 9-17 are flat at 1), with a defined RSV before and after: it exhibits
the pandas reweighting across an interior undefined RSV. -/
def flatDf : List Bar :=
  [⟨0, 1, 2, 0, 1, 0⟩, ⟨1, 1, 2, 0, 1, 0⟩, ⟨2, 1, 2, 0, 1, 0⟩,
   ⟨3, 1, 2, 0, 1, 0⟩, ⟨4, 1, 2, 0, 1, 0⟩, ⟨5, 1, 2, 0, 1, 0⟩,
   ⟨6, 1, 2, 0, 1, 0⟩, ⟨7, 1, 2, 0, 1, 0⟩, ⟨8, 1, 2, 0, 1, 0⟩,
   ⟨9, 1, 1, 1, 1, 0⟩, ⟨10, 1, 1, 1, 1, 0⟩, ⟨11, 1, 1, 1, 1, 0⟩,
   ⟨12, 1, 1, 1, 1, 0⟩, ⟨13, 1, 1, 1, 1, 0⟩, ⟨14, 1, 1, 1, 1, 0⟩,
   ⟨15, 1, 1, 1, 1, 0⟩, ⟨16, 1, 1, 1, 1, 0⟩, ⟨17, 1, 1, 1, 1, 0⟩,
   ⟨18, 4, 4, 1, 4, 0⟩]

/-- Twenty identical bars: the Bollinger window is full at index 19 and the
population variance there is zero. -/
def ones20 : List Bar := List.replicate 20 ⟨0, 1, 1, 1, 1, 0⟩

/-- A closing sequence with two adjacent bars sharing the window maximum. -/
def ex3 : List ℚ := [0, 1, 2, 5, 5, 2, 1, 0]

/-- Five rising bars, for evaluating MA_5 at its first defined index. -/
def df5 : List Bar :=
  [⟨0, 1, 1, 1, 1, 0⟩, ⟨1, 2, 2, 2, 2, 0⟩, ⟨2, 3, 3, 3, 3, 0⟩,
   ⟨3, 4, 4, 4, 4, 0⟩, ⟨4, 5, 5, 5, 5, 0⟩]

/-- A fully populated rolling window, written positionally: it is the list of
values at indices i+1-n .. i. -/
theorem window_eq_map_range (xs : List ℚ) (n i : ℕ) (h1 : n ≤ i + 1) (h2 : i < xs.length) :
    (xs.take (i + 1)).drop (i + 1 - n) = (List.range n).map (fun j => xs.getD (i + 1 - n + j) 0) := by
  apply List.ext_getElem?
  intro j
  rw [List.getElem?_drop, List.getElem?_take, List.getElem?_map]
  by_cases hj : j < n
  · rw [if_pos (by omega), List.getElem?_range hj]
    have hx : i + 1 - n + j < xs.length := by omega
    simp [List.getD_eq_getElem?_getD, List.getElem?_eq_getElem hx]
  · rw [if_neg (by omega)]
    have hnone : (List.range n)[j]? = none := by
      rw [List.getElem?_eq_none_iff, List.length_range]
      omega
    rw [hnone]
    rfl

/-- Claim C5: for n in {5, 14, 20}, MA_n at a valid index i is defined iff
i ≥ n - 1, and when defined it equals the arithmetic mean of the trailing
inclusive window close[i-n+1 .. i]. -/
theorem ma_defined_iff_mean (df : List Bar) (n i : ℕ)
    (hn : n ∈ ([5, 14, 20] : List ℕ)) (hi : i < df.length) :
    ((MA n df i).isSome ↔ n - 1 ≤ i) ∧
    (n - 1 ≤ i →
      MA n df i = some ((((List.range n).map (fun j => closeAt df (i + 1 - n + j))).sum) / n)) := by
  have hlen : (closes df).length = df.length := by simp [closes]
  have hn1 : 1 ≤ n := by simp at hn; omega
  constructor
  · simp only [MA, rollingApply]
    by_cases hcond : n ≤ i + 1 ∧ i < (closes df).length
    · rw [if_pos hcond]
      simp only [Option.isSome_some, true_iff]
      omega
    · rw [if_neg hcond]
      simp only [Option.isSome_none, Bool.false_eq_true, false_iff]
      omega
  · intro h
    have hcond : n ≤ i + 1 ∧ i < (closes df).length := ⟨by omega, by omega⟩
    simp only [MA, rollingApply, if_pos hcond]
    rw [window_eq_map_range (closes df) n i hcond.1 hcond.2]
    unfold listMean
    rw [List.length_map, List.length_range]
    rfl

/-- Witness for C5: MA_5 of the rising series df5 at its first defined index 4
is the mean (1+2+3+4+5)/5 = 3. -/
theorem ma_defined_iff_mean_witness : MA 5 df5 4 = some 3 := by
  have h := (ma_defined_iff_mean df5 5 4 (by decide) (by decide)).2 (by decide)
  rw [h]
  have hc : closes df5 = [1, 2, 3, 4, 5] := by decide
  have hr : List.range 5 = [0, 1, 2, 3, 4] := by decide
  norm_num [hr, closeAt, hc]

/-- Claim C4: the Wave Labeler is all-or-nothing: with fewer than 8 surviving
pivots no labels are assigned; with at least 8, the last 8 surviving pivots
receive, in chronological order, exactly the fixed label sequence. -/
theorem wave_labels_all_or_nothing (fl : List ℕ) :
    (fl.length < 8 → labelsOf fl = []) ∧
    (8 ≤ fl.length →
      (labelsOf fl).map Prod.fst = fl.drop (fl.length - 8) ∧
      (labelsOf fl).map Prod.snd = wave_marks) := by
  constructor
  · intro h
    simp only [labelsOf]
    rw [if_neg (by omega)]
  · intro h
    have hlen : (fl.drop (fl.length - 8)).length = 8 := by
      rw [List.length_drop]; omega
    have hw : wave_marks.length = 8 := by decide
    simp only [labelsOf, if_pos h]
    exact ⟨List.map_fst_zip _ _ (by omega), List.map_snd_zip _ _ (by omega)⟩

/-- Witness for C4: a 2-element pivot list yields no labels; an 8-element one
is labeled completely and in order. -/
theorem wave_labels_all_or_nothing_witness :
    labelsOf [0, 5] = [] ∧
    (labelsOf [0, 3, 6, 9, 12, 15, 18, 21]).map Prod.fst = [0, 3, 6, 9, 12, 15, 18, 21] ∧
    (labelsOf [0, 3, 6, 9, 12, 15, 18, 21]).map Prod.snd = wave_marks := by
  have h := (wave_labels_all_or_nothing [0, 3, 6, 9, 12, 15, 18, 21]).2 (by decide)
  refine ⟨(wave_labels_all_or_nothing [0, 5]).1 (by decide), ?_, h.2⟩
  rw [h.1]
  decide

/-- Claim C6: at every index where the Bollinger fields are defined the bands
are symmetric around the middle, and the upper band offset is twice the square
root of the population variance (divisor 20) of Close over the trailing 20
bars. -/
theorem bollinger_symmetry (df : List Bar) (i : ℕ) (u l : ℝ) (m : ℚ)
    (hu : BB_Upper df i = some u) (hm : BB_Mid df i = some m) (hl : BB_Lower df i = some l) :
    u - (m : ℝ) = (m : ℝ) - l ∧
    u = (m : ℝ) + 2 * Real.sqrt (((bbVar df i).getD 0 : ℚ) : ℝ) := by
  rcases hv : bbVar df i with _ | v
  · simp [BB_Upper, BB_Std, hm, hv] at hu
  · simp only [BB_Upper, BB_Lower, BB_Std, hm, hv, Option.map_some, Option.some.injEq] at hu hl
    subst hu
    subst hl
    refine ⟨by ring, ?_⟩
    rfl

/-- Witness for C6 on twenty constant bars: variance 0, all three bands equal
the mean 1. -/
theorem bollinger_symmetry_witness :
    BB_Upper ones20 19 = some 1 ∧ BB_Mid ones20 19 = some 1 ∧ BB_Lower ones20 19 = some 1 ∧
    ((1 : ℝ) - ((1 : ℚ) : ℝ) = ((1 : ℚ) : ℝ) - 1 ∧
     (1 : ℝ) = ((1 : ℚ) : ℝ) + 2 * Real.sqrt (((bbVar ones20 19).getD 0 : ℚ) : ℝ)) := by
  have hc : closes ones20 = [1, 1, 1, 1, 1, 1, 1, 1, 1, 1, 1, 1, 1, 1, 1, 1, 1, 1, 1, 1] := by
    decide
  have hmid : BB_Mid ones20 19 = some 1 := by norm_num [BB_Mid, rollingApply, listMean, hc]
  have hvar : bbVar ones20 19 = some 0 := by norm_num [bbVar, rollingApply, popVar, listMean, hc]
  have hup : BB_Upper ones20 19 = some 1 := by
    norm_num [BB_Upper, BB_Std, hmid, hvar, Real.sqrt_zero]
  have hlow : BB_Lower ones20 19 = some 1 := by
    norm_num [BB_Lower, BB_Std, hmid, hvar, Real.sqrt_zero]
  exact ⟨hup, hmid, hlow, bollinger_symmetry ones20 19 1 1 1 hup hmid hlow⟩

/-- Before the first observation the accumulated ewm weight is still 1. -/
theorem ewmState_none_wt (f : ℕ → Option ℚ) :
    ∀ i, (ewmState f i).1 = none → (ewmState f i).2 = 1 := by
  intro i
  induction i with
  | zero => intro _; rfl
  | succ i ih =>
    intro h
    have hstep : ewmState f (i + 1) = ewmStep (ewmState f i) (f i) := rfl
    rcases hst : ewmState f i with ⟨w, ow⟩
    rcases w with _ | w
    · rcases hf : f i with _ | c
      · rw [hstep, hst, hf]
        simp only [ewmStep]
        have h2 := ih (by rw [hst])
        rw [hst] at h2
        exact h2
      · rw [hstep, hst, hf] at h
        simp [ewmStep] at h
    · rcases hf : f i with _ | c <;> rw [hstep, hst, hf] at h <;> simp [ewmStep] at h

/-- After an observed (defined) input the accumulated ewm weight resets to 1. -/
theorem ewmState_obs_wt (f : ℕ → Option ℚ) (i : ℕ) (h : (f i).isSome) :
    (ewmState f (i + 1)).2 = 1 := by
  rcases hf : f i with _ | c
  · rw [hf] at h; simp at h
  · rcases hst : ewmState f i with ⟨w, ow⟩
    rcases w with _ | w
    · have h1 : ow = 1 := by
        have h2 := ewmState_none_wt f i (by rw [hst])
        rw [hst] at h2
        exact h2
      simp [ewmState, hst, hf, ewmStep, h1]
    · simp [ewmState, hst, hf, ewmStep]

/-- Once the smoothed value is defined it stays defined. -/
theorem ewmAt_isSome_succ (f : ℕ → Option ℚ) (i : ℕ) (h : (ewmAt f i).isSome) :
    (ewmAt f (i + 1)).isSome := by
  unfold ewmAt at h ⊢
  have hstep : ewmState f (i + 1 + 1) = ewmStep (ewmState f (i + 1)) (f (i + 1)) := rfl
  rcases hst : ewmState f (i + 1) with ⟨w, ow⟩
  rw [hst] at h
  rcases w with _ | w
  · simp at h
  · rcases hf : f (i + 1) with _ | c <;> rw [hstep, hst, hf] <;> simp [ewmStep]

/-- Monotone definedness of the smoothed series. -/
theorem ewmAt_mono (f : ℕ → Option ℚ) {i j : ℕ} (hij : i ≤ j) (h : (ewmAt f i).isSome) :
    (ewmAt f j).isSome := by
  induction j, hij using Nat.le_induction with
  | base => exact h
  | succ j _ ih => exact ewmAt_isSome_succ f j ih

/-- A defined smoothed value comes from some earlier defined input. -/
theorem ewmState_some_exists (f : ℕ → Option ℚ) :
    ∀ i, (ewmState f i).1.isSome → ∃ j, j < i ∧ (f j).isSome := by
  intro i
  induction i with
  | zero => intro h; simp [ewmState] at h
  | succ i ih =>
    intro h
    rcases hf : f i with _ | c
    · rcases hst : ewmState f i with ⟨w, ow⟩
      rcases w with _ | w
      · rw [ewmState, hst, hf] at h
        simp [ewmStep] at h
      · obtain ⟨j, hj, hjs⟩ := ih (by rw [hst]; simp)
        exact ⟨j, by omega, hjs⟩
    · exact ⟨i, by omega, by rw [hf]; simp⟩

/-- The pandas adjust = False recurrence, valid at an index whose predecessor
was an observed input (so that the accumulated weight is 1). -/
theorem ewm_rec (f : ℕ → Option ℚ) (t : ℕ) (r p : ℚ) (ht : 1 ≤ t)
    (hprev : (f (t - 1)).isSome) (hcur : f t = some r) (hp : ewmAt f (t - 1) = some p) :
    ewmAt f t = some (r / 3 + 2 * p / 3) := by
  have hw : (ewmState f t).2 = 1 := by
    have h2 := ewmState_obs_wt f (t - 1) hprev
    rwa [show t - 1 + 1 = t from by omega] at h2
  have hfst : (ewmState f t).1 = some p := by
    have h2 : (ewmState f (t - 1 + 1)).1 = some p := hp
    rwa [show t - 1 + 1 = t from by omega] at h2
  have hst : ewmState f t = (some p, 1) := by
    rcases hs : ewmState f t with ⟨w, ow⟩
    rw [hs] at hw hfst
    simp only at hw hfst
    rw [hw, hfst]
  unfold ewmAt
  rw [ewmState, hst, hcur]
  simp only [ewmStep]
  congr 1
  have hden : (1 * (2 / 3 : ℚ) + 1 / 3) = 1 := by norm_num
  rw [hden, div_one]
  ring

/-- With no observation yet, the ewm state is untouched. -/
theorem ewmState_all_none (f : ℕ → Option ℚ) :
    ∀ i, (∀ j, j < i → f j = none) → ewmState f i = (none, 1) := by
  intro i
  induction i with
  | zero => intro _; rfl
  | succ i ih =>
    intro h
    rw [ewmState, ih (fun j hj => h j (by omega)), h i (by omega)]
    rfl

/-- The smoothing is seeded with the first defined input. -/
theorem ewm_seed (f : ℕ → Option ℚ) (t : ℕ) (r : ℚ)
    (hnone : ∀ j, j < t → f j = none) (hcur : f t = some r) : ewmAt f t = some r := by
  unfold ewmAt
  rw [ewmState, ewmState_all_none f t hnone, hcur]
  rfl

/-- Claim C7 (amended): %K is seeded with the first defined RSV and satisfies
K_t = (1/3)·RSV_t + (2/3)·K_(t-1) at every index t whose predecessor RSV is
also defined; %D is the same recurrence on %K.  (After an interior undefined
RSV the pandas weighting gives a different value, see the counterexample.) -/
theorem kd_recurrence_amended (df : List Bar) (t : ℕ) (r p : ℚ) (ht : 1 ≤ t) :
    ((RSV df (t - 1)).isSome → RSV df t = some r → K df (t - 1) = some p →
      K df t = some (r / 3 + 2 * p / 3)) ∧
    (K df t = some r → D df (t - 1) = some p → D df t = some (r / 3 + 2 * p / 3)) ∧
    ((∀ j, j < t → RSV df j = none) → RSV df t = some r → K df t = some r) := by
  refine ⟨?_, ?_, ?_⟩
  · intro h1 h2 h3
    exact ewm_rec (RSV df) t r p ht h1 h2 h3
  · intro h1 h2
    have hK : (K df (t - 1)).isSome := by
      have hsome : (ewmState (K df) (t - 1 + 1)).1.isSome := by
        have h3 : (ewmState (K df) (t - 1 + 1)).1 = some p := h2
        rw [h3]
        rfl
      obtain ⟨j, hj, hjs⟩ := ewmState_some_exists (K df) (t - 1 + 1) hsome
      exact ewmAt_mono (RSV df) (show j ≤ t - 1 by omega) hjs
    exact ewm_rec (K df) t r p ht hK h1 h2
  · intro h1 h2
    exact ewm_seed (RSV df) t r h1 h2

/-- Counterexample for C7 as originally stated: on flatDf the RSV at 17 is
undefined (zero-range window), RSV at 18 is defined (= 100), K at 17 is 50,
yet K at 18 is 500/7, not (1/3)·100 + (2/3)·50 = 200/3: the recurrence fails
at an index where RSV is defined. -/
theorem kd_recurrence_counterexample :
    RSV flatDf 17 = none ∧ RSV flatDf 18 = some 100 ∧ K flatDf 17 = some 50 ∧
    K flatDf 18 = some (500 / 7) ∧ (500 / 7 : ℚ) ≠ 1 / 3 * 100 + 2 / 3 * 50 := by
  have hc : closes flatDf = [1, 1, 1, 1, 1, 1, 1, 1, 1, 1, 1, 1, 1, 1, 1, 1, 1, 1, 4] := by decide
  have hh : highs flatDf = [2, 2, 2, 2, 2, 2, 2, 2, 2, 1, 1, 1, 1, 1, 1, 1, 1, 1, 4] := by decide
  have hl : lows flatDf = [0, 0, 0, 0, 0, 0, 0, 0, 0, 1, 1, 1, 1, 1, 1, 1, 1, 1, 1] := by decide
  refine ⟨by decide, ?_, ?_, ?_, by norm_num⟩
  · have h1 : high_max flatDf 18 = some 4 := by decide
    have h2 : low_min flatDf 18 = some 1 := by decide
    norm_num [RSV, h1, h2, closeAt, hc]
  · norm_num [K, ewmAt, ewmState, ewmStep, RSV, high_max, low_min, rollingApply, closeAt, hc,
      hh, hl]
  · norm_num [K, ewmAt, ewmState, ewmStep, RSV, high_max, low_min, rollingApply, closeAt, hc,
      hh, hl]

/-- Witness for C7 (amended) on the zigzag series: at t = 9 both RSV values are
defined and the recurrence holds for K and D; at t = 8 the seed equals the
first defined RSV. -/
theorem kd_recurrence_amended_witness :
    K exDf 9 = some (100 / 3 + 2 * 60 / 3) ∧ D exDf 9 = some (220 / 3 / 3 + 2 * 60 / 3) ∧
    K exDf 8 = some 60 := by
  have hc : closes exDf = [100, 103, 106, 110, 106, 103, 100, 103, 106, 110, 106, 103, 100, 103,
      106, 110, 106, 103, 100, 103, 106, 110, 106, 103, 100, 103, 106, 110] := by decide
  have hh : highs exDf = [100, 103, 106, 110, 106, 103, 100, 103, 106, 110, 106, 103, 100, 103,
      106, 110, 106, 103, 100, 103, 106, 110, 106, 103, 100, 103, 106, 110] := by decide
  have hlo : lows exDf = [100, 103, 106, 110, 106, 103, 100, 103, 106, 110, 106, 103, 100, 103,
      106, 110, 106, 103, 100, 103, 106, 110, 106, 103, 100, 103, 106, 110] := by decide
  have hR8 : RSV exDf 8 = some 60 := by
    have h1 : high_max exDf 8 = some 110 := by decide
    have h2 : low_min exDf 8 = some 100 := by decide
    norm_num [RSV, h1, h2, closeAt, hc]
  have hR9 : RSV exDf 9 = some 100 := by
    have h1 : high_max exDf 9 = some 110 := by decide
    have h2 : low_min exDf 9 = some 100 := by decide
    norm_num [RSV, h1, h2, closeAt, hc]
  have hnone : ∀ j, j < 8 → RSV exDf j = none := by decide
  have hK8 : K exDf 8 = some 60 :=
    (kd_recurrence_amended exDf 8 60 0 (by norm_num)).2.2 hnone hR8
  have hK9 : K exDf 9 = some (220 / 3) := by
    norm_num [K, ewmAt, ewmState, ewmStep, RSV, high_max, low_min, rollingApply, closeAt, hc,
      hh, hlo]
  have hD8 : D exDf 8 = some 60 := by
    norm_num [D, K, ewmAt, ewmState, ewmStep, RSV, high_max, low_min, rollingApply, closeAt, hc,
      hh, hlo]
  refine ⟨?_, ?_, hK8⟩
  · exact (kd_recurrence_amended exDf 9 100 60 (by norm_num)).1 (by rw [hR8]; rfl) hR9 hK8
  · exact (kd_recurrence_amended exDf 9 (220 / 3) 60 (by norm_num)).2.1 hK9 hD8

/-- Claim C8: a fully populated 9-bar window whose High maximum equals its Low
minimum yields an explicitly undefined RSV, and a defined RSV certifies that
the divisions denominator was nonzero. -/
theorem rsv_zero_range_guard (df : List Bar) (i : ℕ) :
    (9 ≤ i + 1 → i < df.length → high_max df i = low_min df i → RSV df i = none) ∧
    (RSV df i ≠ none → high_max df i ≠ low_min df i) := by
  constructor
  · intro h1 h2 h3
    have hlen : (highs df).length = df.length := by simp [highs]
    obtain ⟨hm, hhm⟩ : ∃ hm, high_max df i = some hm := by
      simp only [high_max, rollingApply]
      rw [if_pos ⟨h1, by omega⟩]
      exact ⟨_, rfl⟩
    have hlm : low_min df i = some hm := by rw [← h3, hhm]
    simp [RSV, hhm, hlm]
  · intro hne h3
    apply hne
    rcases hhm : high_max df i with _ | hm
    · simp [RSV, hhm]
    · have hlm : low_min df i = some hm := by rw [← h3, hhm]
      simp [RSV, hhm, hlm]

/-- Witness for C8: on flatDf the window at 17 is flat (range zero) and RSV is
undefined there; at 16 RSV is defined and the range is indeed nonzero. -/
theorem rsv_zero_range_guard_witness :
    RSV flatDf 17 = none ∧ high_max flatDf 16 ≠ low_min flatDf 16 := by
  refine ⟨(rsv_zero_range_guard flatDf 17).1 (by norm_num) (by decide) (by decide),
    (rsv_zero_range_guard flatDf 16).2 ?_⟩
  have hc : closes flatDf = [1, 1, 1, 1, 1, 1, 1, 1, 1, 1, 1, 1, 1, 1, 1, 1, 1, 1, 4] := by decide
  have h1 : high_max flatDf 16 = some 2 := by decide
  have h2 : low_min flatDf 16 = some 0 := by decide
  have h : RSV flatDf 16 = some 50 := by norm_num [RSV, h1, h2, closeAt, hc]
  rw [h]
  simp

/-- Counterexample for C2: on the empty price series the pipeline completes
and yields empty outputs at every stage (no error is reported anywhere - the
module-level script has no error path for an empty frame). -/
theorem empty_series_counterexample :
    labels ([] : List Bar) = [] ∧ pred_path ([] : List Bar) = some ([], []) ∧
    all_idx ([] : List Bar) = [] ∧ MA 20 ([] : List Bar) 0 = none ∧
    K ([] : List Bar) 0 = none := by
  decide

/-- Claim C2 (amended): on the empty series every indicator is undefined at
every index, no pivots or labels are produced, and the projector emits the
empty projection; the computation is total, it degrades silently instead of
failing fast. -/
theorem empty_series_silent (n i : ℕ) :
    MA n ([] : List Bar) i = none ∧ RSV ([] : List Bar) i = none ∧
    K ([] : List Bar) i = none ∧ D ([] : List Bar) i = none ∧
    pivot_points_high (closes ([] : List Bar)) 3 = [] ∧
    labels ([] : List Bar) = [] ∧ pred_path ([] : List Bar) = some ([], []) := by
  have hRSV : ∀ j, RSV ([] : List Bar) j = none := by
    intro j
    simp [RSV, high_max, rollingApply, highs]
  have hK : ∀ j, K ([] : List Bar) j = none := by
    intro j
    unfold K ewmAt
    rw [ewmState_all_none (RSV ([] : List Bar)) (j + 1) (fun k _ => hRSV k)]
  have hD : ∀ j, D ([] : List Bar) j = none := by
    intro j
    unfold D ewmAt
    rw [ewmState_all_none (K ([] : List Bar)) (j + 1) (fun k _ => hK k)]
  refine ⟨?_, hRSV i, hK i, hD i, by decide, by decide, by decide⟩
  simp [MA, rollingApply, closes]

/-- The pivot scan range is exactly the set of interior indices. -/
theorem mem_pivotRange (len w i : ℕ) : i ∈ pivotRange len w ↔ w ≤ i ∧ i + w < len := by
  unfold pivotRange
  rw [List.mem_range'_1]
  omega

/-- The symmetric pivot window, written positionally. -/
theorem segAt_eq_map (s : List ℚ) (w i : ℕ) (hw : w ≤ i) (hiw : i + w < s.length) :
    segAt s w i = (List.range (2 * w + 1)).map (fun j => s.getD (i - w + j) 0) := by
  have h := window_eq_map_range s (2 * w + 1) (i + w) (by omega) (by omega)
  unfold segAt
  rw [show i - w = i + w + 1 - (2 * w + 1) from by omega, h]

/-- Membership in the pivot window. -/
theorem mem_segAt (s : List ℚ) (w i : ℕ) (hw : w ≤ i) (hiw : i + w < s.length) (x : ℚ) :
    x ∈ segAt s w i ↔ ∃ j, i - w ≤ j ∧ j ≤ i + w ∧ s.getD j 0 = x := by
  rw [segAt_eq_map s w i hw hiw, List.mem_map]
  constructor
  · rintro ⟨j, hj, rfl⟩
    rw [List.mem_range] at hj
    exact ⟨i - w + j, by omega, by omega, rfl⟩
  · rintro ⟨j, h1, h2, rfl⟩
    refine ⟨j - (i - w), ?_, ?_⟩
    · rw [List.mem_range]; omega
    · congr 1; omega

/-- Claim C3 (amended): pivot_points emits i as a peak iff i is interior and
close[i] attains the maximum of its symmetric window - every bar attaining a
tied maximum is emitted, there is no first-occurrence tie-break; dually for
troughs and the minimum. -/
theorem pivot_membership (s : List ℚ) (w i : ℕ) :
    (i ∈ pivot_points_high s w ↔
      w ≤ i ∧ i + w < s.length ∧ ∀ j, i - w ≤ j → j ≤ i + w → s.getD j 0 ≤ s.getD i 0) ∧
    (i ∈ pivot_points_low s w ↔
      w ≤ i ∧ i + w < s.length ∧ ∀ j, i - w ≤ j → j ≤ i + w → s.getD i 0 ≤ s.getD j 0) := by
  constructor
  · unfold pivot_points_high
    rw [List.mem_filter, mem_pivotRange]
    constructor
    · rintro ⟨⟨h1, h2⟩, hmax⟩
      rw [decide_eq_true_iff, List.maximum_eq_coe_iff] at hmax
      exact ⟨h1, h2, fun j hj1 hj2 => hmax.2 _ ((mem_segAt s w i h1 h2 _).2 ⟨j, hj1, hj2, rfl⟩)⟩
    · rintro ⟨h1, h2, hall⟩
      refine ⟨⟨h1, h2⟩, ?_⟩
      rw [decide_eq_true_iff, List.maximum_eq_coe_iff]
      refine ⟨(mem_segAt s w i h1 h2 _).2 ⟨i, by omega, by omega, rfl⟩, ?_⟩
      intro a ha
      obtain ⟨j, hj1, hj2, rfl⟩ := (mem_segAt s w i h1 h2 a).1 ha
      exact hall j hj1 hj2
  · unfold pivot_points_low
    rw [List.mem_filter, mem_pivotRange]
    constructor
    · rintro ⟨⟨h1, h2⟩, hmin⟩
      rw [decide_eq_true_iff, List.minimum_eq_coe_iff] at hmin
      exact ⟨h1, h2, fun j hj1 hj2 => hmin.2 _ ((mem_segAt s w i h1 h2 _).2 ⟨j, hj1, hj2, rfl⟩)⟩
    · rintro ⟨h1, h2, hall⟩
      refine ⟨⟨h1, h2⟩, ?_⟩
      rw [decide_eq_true_iff, List.minimum_eq_coe_iff]
      refine ⟨(mem_segAt s w i h1 h2 _).2 ⟨i, by omega, by omega, rfl⟩, ?_⟩
      intro a ha
      obtain ⟨j, hj1, hj2, rfl⟩ := (mem_segAt s w i h1 h2 a).1 ha
      exact hall j hj1 hj2

/-- Counterexample for C3 as stated: in ex3 the bars 3 and 4 share the maximum
of one common window and BOTH are emitted as peaks - the claimed
first-occurrence tie-break does not exist in the code. -/
theorem pivot_tie_counterexample :
    pivot_points_high ex3 3 = [3, 4] ∧ ex3.getD 3 0 = ex3.getD 4 0 := by decide

/-- Witness for C3 (amended), reading off one consequence of membership of the
tied peak at index 4. -/
theorem pivot_membership_witness : ex3.getD 3 0 ≤ ex3.getD 4 0 := by
  have h := (pivot_membership ex3 3 4).1.mp (by decide)
  exact h.2.2 3 (by decide) (by decide)

/-- The filter keeps every accepted pivot at least 3 bars and at least a 1%
relative Close move away from the previously accepted one. -/
theorem chain_filterAux (c : ℕ → ℚ) (l : List ℕ) :
    ∀ last, List.Chain (fun a b => 3 ≤ b - a ∧ 1 / 100 ≤ |c b - c a| / c a)
      last (filterAux c last l) := by
  induction l with
  | nil => intro last; exact List.Chain.nil
  | cons idx rest ih =>
    intro last
    show List.Chain _ last (filterAux c last (idx :: rest))
    simp only [filterAux]
    by_cases h1 : idx - last < 3
    · rw [if_pos h1]; exact ih last
    · rw [if_neg h1]
      by_cases h2 : |c idx - c last| / c last < 1 / 100
      · rw [if_pos h2]; exact ih last
      · rw [if_neg h2]
        exact List.Chain.cons ⟨by omega, le_of_not_lt h2⟩ (ih idx)

/-- Consecutive accepted pivots are at least 3 bars and 1% apart. -/
theorem filteredPivots_chain (c : ℕ → ℚ) (l : List ℕ) :
    List.Chain' (fun a b => 3 ≤ b - a ∧ 1 / 100 ≤ |c b - c a| / c a) (filteredPivots c l) := by
  cases l with
  | nil => simp [filteredPivots]
  | cons a rest => exact chain_filterAux c rest a

/-- Claim C9: the filtering pass is the greedy left-to-right rule: the head of
the input is accepted unconditionally; a candidate is rejected exactly when it
is fewer than 3 bars after the last accepted pivot or moves less than 1%
relative to it; consequently consecutive accepted pivots are at least 3 bars
and at least 1% apart. -/
theorem pivot_filter_greedy (c : ℕ → ℚ) (l : List ℕ) :
    (filteredPivots c l).head? = l.head? ∧
    List.Chain' (fun a b => 3 ≤ b - a ∧ 1 / 100 ≤ |c b - c a| / c a) (filteredPivots c l) ∧
    (∀ last idx rest, filterAux c last (idx :: rest) =
      if idx - last < 3 ∨ |c idx - c last| / c last < 1 / 100 then filterAux c last rest
      else idx :: filterAux c idx rest) := by
  refine ⟨?_, ?_, ?_⟩
  · cases l <;> simp [filteredPivots]
  · exact filteredPivots_chain c l
  · intro last idx rest
    by_cases h1 : idx - last < 3
    · simp [filterAux, h1]
    · by_cases h2 : |c idx - c last| / c last < 1 / 100
      · simp [filterAux, h1, h2]
      · simp [filterAux, h1, h2]

/-- Witness for C9 on the zigzag series: the first merged pivot survives. -/
theorem pivot_filter_greedy_witness :
    (filteredPivots (closeAt exDf) (all_idx exDf)).head? = (all_idx exDf).head? :=
  (pivot_filter_greedy (closeAt exDf) (all_idx exDf)).1

/-- A suffix of a chain is a chain. -/
theorem chain'_drop {α : Type} {R : α → α → Prop} (n : ℕ) :
    ∀ l : List α, List.Chain' R l → List.Chain' R (l.drop n) := by
  induction n with
  | zero => intro l h; exact h
  | succ n ih =>
    intro l h
    cases l with
    | nil => simp
    | cons a t => exact ih t h.tail

/-- An 8-element list, destructed. -/
theorem length_eight_destruct (l : List ℕ) (h : l.length = 8) :
    ∃ a b c d e f g h8, l = [a, b, c, d, e, f, g, h8] := by
  match l, h with
  | [a, b, c, d, e, f, g, h8], _ => exact ⟨a, b, c, d, e, f, g, h8, rfl⟩

/-- With at least 8 surviving pivots, the label assignment written out. -/
theorem labelsOf_eq_explicit (fl : List ℕ) (h : 8 ≤ fl.length) :
    ∃ a b c d e f g h8, fl.drop (fl.length - 8) = [a, b, c, d, e, f, g, h8] ∧
      labelsOf fl = [(a, "①"), (b, "②"), (c, "③"), (d, "④"), (e, "⑤"),
        (f, "A"), (g, "B"), (h8, "C")] := by
  have hlen : (fl.drop (fl.length - 8)).length = 8 := by rw [List.length_drop]; omega
  obtain ⟨a, b, c, d, e, f, g, h8, heq⟩ := length_eight_destruct _ hlen
  refine ⟨a, b, c, d, e, f, g, h8, heq, ?_⟩
  simp [labelsOf, if_pos h, heq, wave_marks]

/-- Claim C10: a non-empty label assignment carries all 8 marks on strictly
increasing bar indices; under the "B" guard both lookups of the projector
succeed and the projection is produced (no IndexError). -/
theorem labels_nonempty_structure (df : List Bar) :
    (labels df ≠ [] →
      (labels df).length = 8 ∧ (labels df).map Prod.snd = wave_marks ∧
      List.Chain' (fun a b => a < b) ((labels df).map Prod.fst)) ∧
    ("B" ∈ (labels df).map Prod.snd →
      (firstLabeled df "A").isSome ∧ (firstLabeled df "B").isSome ∧ pred_path df ≠ none) := by
  by_cases h8 : 8 ≤ (filtered df).length
  case neg =>
    have hnil : labels df = [] := by
      unfold labels labelsOf
      rw [if_neg h8]
    rw [hnil]
    exact ⟨fun h => absurd rfl h, fun h => by simp at h⟩
  case pos =>
    obtain ⟨a, b, c, d, e, f, g, h8x, heq, hlab⟩ := labelsOf_eq_explicit (filtered df) h8
    have hlabels : labels df = [(a, "①"), (b, "②"), (c, "③"), (d, "④"), (e, "⑤"),
        (f, "A"), (g, "B"), (h8x, "C")] := hlab
    have hchain : List.Chain' (fun x y => x < y) (filtered df) :=
      List.Chain'.imp (fun x y hxy => by have := hxy.1; omega)
        (filteredPivots_chain (closeAt df) (all_idx df))
    have hchain8 := chain'_drop ((filtered df).length - 8) (filtered df) hchain
    rw [heq] at hchain8
    have hA : firstLabeled df "A" = some f := by
      simp only [firstLabeled, hlabels]
      simp [List.filter]
    have hB : firstLabeled df "B" = some g := by
      simp only [firstLabeled, hlabels]
      simp [List.filter]
    constructor
    · intro _
      refine ⟨by rw [hlabels]; rfl, by rw [hlabels]; rfl, ?_⟩
      rw [hlabels]
      simpa using hchain8
    · intro hmem
      refine ⟨by rw [hA]; rfl, by rw [hB]; rfl, ?_⟩
      unfold pred_path
      rw [if_pos hmem, hB, hA]
      simp

/-- Witness for C10 on the zigzag series. -/
theorem labels_nonempty_structure_witness :
    (labels exDf).length = 8 ∧ (labels exDf).map Prod.snd = wave_marks ∧
    List.Chain' (fun a b => a < b) ((labels exDf).map Prod.fst) ∧
    (firstLabeled exDf "A").isSome ∧ (firstLabeled exDf "B").isSome ∧
    pred_path exDf ≠ none := by
  have h : all_idx exDf = [3, 6, 9, 12, 15, 18, 21, 24] := by decide
  have hc : closes exDf = [100, 103, 106, 110, 106, 103, 100, 103, 106, 110, 106, 103, 100, 103,
      106, 110, 106, 103, 100, 103, 106, 110, 106, 103, 100, 103, 106, 110] := by decide
  have hlab : labels exDf = [(3, "①"), (6, "②"), (9, "③"), (12, "④"), (15, "⑤"),
      (18, "A"), (21, "B"), (24, "C")] := by
    norm_num [labels, labelsOf, filtered, h, filteredPivots, filterAux, closeAt, hc, wave_marks]
  have h1 := (labels_nonempty_structure exDf).1 (by rw [hlab]; simp)
  have h2 := (labels_nonempty_structure exDf).2 (by rw [hlab]; decide)
  exact ⟨h1.1, h1.2.1, h1.2.2, h2.1, h2.2.1, h2.2.2⟩

/-- Claim C1: whenever pivots labeled "A" and "B" exist, the projector emits
exactly one two-point segment from (date_B, price_B) to (date_B + 20, target)
with target = price_B + (price_B - price_A) · 0.618; with no "B" label no
projection is produced. -/
theorem forecast_projection (df : List Bar) :
    ("A" ∈ (labels df).map Prod.snd → "B" ∈ (labels df).map Prod.snd →
      pred_path df =
        some ([dateAt df ((firstLabeled df "B").getD 0),
               dateAt df ((firstLabeled df "B").getD 0) + 20],
              [closeAt df ((firstLabeled df "B").getD 0),
               closeAt df ((firstLabeled df "B").getD 0) +
                 (closeAt df ((firstLabeled df "B").getD 0) -
                  closeAt df ((firstLabeled df "A").getD 0)) * (618 / 1000)])) ∧
    ("B" ∉ (labels df).map Prod.snd → pred_path df = some ([], [])) := by
  constructor
  · intro hA hB
    by_cases h8 : 8 ≤ (filtered df).length
    · obtain ⟨a, b, c, d, e, f, g, h8x, heq, hlab⟩ := labelsOf_eq_explicit (filtered df) h8
      have hlabels : labels df = [(a, "①"), (b, "②"), (c, "③"), (d, "④"), (e, "⑤"),
          (f, "A"), (g, "B"), (h8x, "C")] := hlab
      have hAv : firstLabeled df "A" = some f := by
        simp only [firstLabeled, hlabels]
        simp [List.filter]
      have hBv : firstLabeled df "B" = some g := by
        simp only [firstLabeled, hlabels]
        simp [List.filter]
      unfold pred_path
      rw [if_pos hB, hBv, hAv]
      rfl
    · exfalso
      have hnil : labels df = [] := by
        unfold labels labelsOf
        rw [if_neg h8]
      rw [hnil] at hB
      simp at hB
  · intro hnB
    unfold pred_path
    rw [if_neg hnB]

/-- Witness for C1: on the zigzag series price_A = 100, price_B = 110 at bar
21, so the segment runs from (21, 110) to (41, 116.18); on flatDf no label
exists and no projection is produced. -/
theorem forecast_projection_witness :
    pred_path exDf = some ([21, 41], [110, 5809 / 50]) ∧
    pred_path flatDf = some ([], []) := by
  have h : all_idx exDf = [3, 6, 9, 12, 15, 18, 21, 24] := by decide
  have hc : closes exDf = [100, 103, 106, 110, 106, 103, 100, 103, 106, 110, 106, 103, 100, 103,
      106, 110, 106, 103, 100, 103, 106, 110, 106, 103, 100, 103, 106, 110] := by decide
  have hlab : labels exDf = [(3, "①"), (6, "②"), (9, "③"), (12, "④"), (15, "⑤"),
      (18, "A"), (21, "B"), (24, "C")] := by
    norm_num [labels, labelsOf, filtered, h, filteredPivots, filterAux, closeAt, hc, wave_marks]
  have hB : firstLabeled exDf "B" = some 21 := by simp only [firstLabeled, hlab]; decide
  have hA : firstLabeled exDf "A" = some 18 := by simp only [firstLabeled, hlab]; decide
  constructor
  · have hproj := (forecast_projection exDf).1 (by rw [hlab]; decide) (by rw [hlab]; decide)
    rw [hproj, hB, hA]
    have hd : dateAt exDf 21 = 21 := by decide
    have hc21 : closeAt exDf 21 = 110 := by decide
    have hc18 : closeAt exDf 18 = 100 := by decide
    simp only [Option.getD_some, hd, hc21, hc18]
    norm_num
  · have hcf : closes flatDf = [1, 1, 1, 1, 1, 1, 1, 1, 1, 1, 1, 1, 1, 1, 1, 1, 1, 1, 4] := by
      decide
    have hf : all_idx flatDf = [3, 4, 5, 6, 7, 8, 9, 10, 11, 12, 13, 14, 15] := by decide
    have hlabf : labels flatDf = [] := by
      norm_num [labels, labelsOf, filtered, hf, filteredPivots, filterAux, closeAt, hcf]
    exact (forecast_projection flatDf).2 (by rw [hlabf]; simp)

